import Mathlib

/-!
Shallow embedding of the portfolio valuation pipeline (src/main.py).

Python Decimal values are modelled as exact rationals, timestamps as
natural numbers, and the external price provider and wallet RPC provider
as explicit function parameters, so every definition is executable.
-/

namespace Valuation

/-- Outcome of one call to the quote provider for one lookback window:
either an ordered history of close prices, or a raised provider error. -/
inductive ProviderResult where
  | ok (history : List ℚ)
  | err
deriving DecidableEq, Repr

/-- A row of the TrackedCurrenciesIndexes registry. -/
structure TrackedInstrument where
  indexName : String
  ticker : String
  fromCurrency : String
  toCurrency : String
deriving DecidableEq, Repr

/-- A row of the ManualHoldings table. -/
structure ManualHolding where
  platform : String
  accountWallet : String
  assetType : String
  assetName : String
  ticker : String
  amount : ℚ
  nativeCurrency : String
deriving DecidableEq, Repr

/-- A row of the AssetsHistoricalValues table (one ValuationRecord). -/
structure ValuationRecord where
  platform : String
  accountWallet : String
  assetType : String
  assetName : String
  ticker : String
  amount : ℚ
  nativeCurrency : String
  nativePrice : ℚ
  usdPrice : ℚ
  totalNative : ℚ
  totalUSD : ℚ
  timestamp : ℕ
deriving DecidableEq, Repr

/-- A row of the HistoricalRates table (one RateObservation). -/
structure RateObservation where
  ticker : String
  price : ℚ
  timestamp : ℕ
deriving DecidableEq, Repr

/-- A normalized wallet asset: the dicts built by get_native_sol_balance
and get_other_assets. -/
structure NormalizedAsset where
  symbol : String
  balance : ℚ
  total_price : ℚ
deriving DecidableEq, Repr

/-- One token entry of a wallet provider response, with the dict-level
defaults of the Python .get calls already applied. -/
structure TokenEntry where
  symbol : String
  balance : ℤ
  decimals : ℕ
  total_price : ℚ
deriving DecidableEq, Repr

/-- The payload under the result key of a searchAssets response:
its items list (default empty). -/
structure SearchResult where
  items : List TokenEntry
deriving DecidableEq, Repr

/-- A searchAssets JSON response; result is none when the result key is
missing. The whole response is absent (none at the call site) when the
HTTP request failed. -/
structure SearchRaw where
  result : Option SearchResult
deriving DecidableEq, Repr

/-- The payload under the result key of a getAssetsByOwner response;
lamports is none when nativeBalance or its lamports field is missing,
in which case the Python chain of .get calls yields 0. -/
structure GetAssetsResult where
  lamports : Option ℤ
deriving DecidableEq, Repr

/-- A getAssetsByOwner JSON response; result is none when the result key
is missing. -/
structure GetAssetsRaw where
  result : Option GetAssetsResult
deriving DecidableEq, Repr

/-- The external world one pipeline run talks to: the quote provider
(ticker and period to history), the conversion-instrument registry rows,
and the two wallet RPC methods (respond by wallet address; none models a
failed HTTP call). -/
structure Env where
  provider : String → String → ProviderResult
  registry : List TrackedInstrument
  getAssets : String → Option GetAssetsRaw
  searchAssets : String → Option SearchRaw

/-! ## Price Resolver (get_latest_price) -/

/-- The ordered lookback windows tried by get_latest_price. -/
def periods : List String := ["1d", "5d"]

/-- The loop body of get_latest_price: try each period in order; a
non-empty history returns its last close price; an empty history or a
raised error falls through to the next period. -/
def try_periods (f : String → String → ProviderResult) (ticker : String) :
    List String → Option ℚ
  | [] => none
  | p :: ps =>
    match f ticker p with
    | ProviderResult.ok history =>
      match history.getLast? with
      | some price => some price
      | none => try_periods f ticker ps
    | ProviderResult.err => try_periods f ticker ps

/-- get_latest_price: tiered lookup over the fixed period list, returning
none when every attempt fails. -/
def get_latest_price (f : String → String → ProviderResult) (ticker : String) :
    Option ℚ :=
  try_periods f ticker periods

/-! ## Currency Converter (get_usd_exchange_rate) -/

/-- The SELECT Ticker FROM TrackedCurrenciesIndexes WHERE FromCurrency = c
AND ToCurrency = USD lookup: ticker of the first matching registry row. -/
def lookup_conversion_ticker (registry : List TrackedInstrument)
    (currency : String) : Option String :=
  ((registry.filter fun i =>
      i.fromCurrency == currency && i.toCurrency == "USD")).head?.map
    fun i => i.ticker

/-- get_usd_exchange_rate: identity for USD, otherwise registry lookup
followed by price resolution. -/
def get_usd_exchange_rate (registry : List TrackedInstrument)
    (f : String → String → ProviderResult) (currency : String) : Option ℚ :=
  if currency = "USD" then some 1
  else
    match lookup_conversion_ticker registry currency with
    | none => none
    | some tkr => get_latest_price f tkr

/-! ## SOL rate cache (get_sol_price) -/

/-- The row selected by ORDER BY Timestamp DESC LIMIT 1: a row of maximal
timestamp in the list, when one exists. -/
def latest_row : List RateObservation → Option RateObservation
  | [] => none
  | r :: rs =>
    match latest_row rs with
    | none => some r
    | some b => if r.timestamp < b.timestamp then some b else some r

/-- get_sol_price: the most recent cached SOL-USD rate from the
HistoricalRates table, with the documented default of 20 when no
observation exists. -/
def get_sol_price (rates : List RateObservation) : ℚ :=
  match latest_row (rates.filter fun r => r.ticker == "SOL-USD") with
  | some r => r.price
  | none => 20

/-! ## Wallet Asset Normalizer -/

/-- get_native_sol_balance: extract the lamport balance (default 0 when
fields are missing), scale by 10^9, and price with get_sol_price. Returns
none when the response is absent or has no result key. -/
def get_native_sol_balance (raw : Option GetAssetsRaw)
    (rates : List RateObservation) : Option NormalizedAsset :=
  match raw with
  | none => none
  | some r =>
    match r.result with
    | none => none
    | some res =>
      let native_balance : ℚ := ((res.lamports.getD 0 : ℤ) : ℚ)
      let sol_price := get_sol_price rates
      some { symbol := "SOL",
             balance := native_balance / (10 ^ 9 : ℚ),
             total_price := native_balance / (10 ^ 9 : ℚ) * sol_price }

/-- get_other_assets: one NormalizedAsset per token of the searchAssets
response, scaling the raw balance by its reported decimals and taking the
provider-reported total price directly; empty when the response is absent
or has no result key. -/
def get_other_assets (raw : Option SearchRaw) : List NormalizedAsset :=
  match raw with
  | none => []
  | some r =>
    match r.result with
    | none => []
    | some res =>
      res.items.map fun t =>
        { symbol := t.symbol,
          balance := (t.balance : ℚ) / (10 ^ t.decimals : ℚ),
          total_price := t.total_price }

/-- combine_and_filter_assets: native entry first when present, then the
fungible assets, keeping only assets whose total price exceeds 10. -/
def combine_and_filter_assets (native_sol : Option NormalizedAsset)
    (other_assets : List NormalizedAsset) : List NormalizedAsset :=
  let all_assets :=
    match native_sol with
    | some n => n :: other_assets
    | none => other_assets
  all_assets.filter fun a => decide (10 < a.total_price)

/-! ## Valuation Pipeline (update_holdings_and_rates) -/

/-- The rate resolution step inside the manual-holdings loop: identity
rate and overwritten currency for the Solana platform, otherwise the
Currency Converter with the native currency of the holding. -/
def holding_rate_and_currency (env : Env) (h : ManualHolding) :
    Option ℚ × String :=
  if h.platform = "Solana" then (some 1, "USD")
  else (get_usd_exchange_rate env.registry env.provider h.nativeCurrency,
        h.nativeCurrency)

/-- One iteration of the manual-holdings loop: none when the price or the
rate is unavailable, otherwise the inserted ValuationRecord. -/
def process_holding (env : Env) (ts : ℕ) (h : ManualHolding) :
    Option ValuationRecord :=
  match get_latest_price env.provider h.ticker with
  | none => none
  | some price =>
    match (holding_rate_and_currency env h).1 with
    | none => none
    | some rate =>
      let native_price := price
      let usd_price := native_price * rate
      some { platform := h.platform,
             accountWallet := h.accountWallet,
             assetType := h.assetType,
             assetName := h.assetName,
             ticker := h.ticker,
             amount := h.amount,
             nativeCurrency := (holding_rate_and_currency env h).2,
             nativePrice := native_price,
             usdPrice := usd_price,
             totalNative := h.amount * native_price,
             totalUSD := h.amount * usd_price,
             timestamp := ts }

/-- The row inserted into AssetsHistoricalValues for one surviving wallet
asset: unit price is total over balance, guarded to 0 for a zero balance. -/
def wallet_record (wallet_address : String) (ts : ℕ) (a : NormalizedAsset) :
    ValuationRecord :=
  let unit_price := if a.balance ≠ 0 then a.total_price / a.balance else 0
  { platform := "Solana",
    accountWallet := wallet_address,
    assetType := "Crypto",
    assetName := a.symbol,
    ticker := a.symbol ++ "-USD",
    amount := a.balance,
    nativeCurrency := "USD",
    nativePrice := unit_price,
    usdPrice := unit_price,
    totalNative := a.total_price,
    totalUSD := a.total_price,
    timestamp := ts }

/-- process_solana_wallet_holdings: query both wallet RPC methods,
normalize, dust-filter, and emit one record per surviving asset. -/
def process_solana_wallet_holdings (env : Env) (wallet_address : String)
    (ts : ℕ) (rates : List RateObservation) : List ValuationRecord :=
  let native := get_native_sol_balance (env.getAssets wallet_address) rates
  let others := get_other_assets (env.searchAssets wallet_address)
  (combine_and_filter_assets native others).map (wallet_record wallet_address ts)

/-- The tracked-instruments loop: one RateObservation per tracked ticker
whose price resolves, stamped with the run timestamp. -/
def rate_observations (env : Env) (ts : ℕ) (tracked : List String) :
    List RateObservation :=
  tracked.filterMap fun t =>
    (get_latest_price env.provider t).map fun p =>
      { ticker := t, price := p, timestamp := ts }

/-- update_holdings_and_rates: one pipeline run. The timestamp ts models
the single datetime.now() captured before any processing; rates0 is the
HistoricalRates table content before the run, and the wallet phase reads
that table after the tracked-rate rows of this run were appended to it.
Returns the emitted ValuationRecords and RateObservations. -/
def update_holdings_and_rates (env : Env) (ts : ℕ)
    (holdings : List ManualHolding) (tracked : List String)
    (wallets : List (String × String)) (rates0 : List RateObservation) :
    List ValuationRecord × List RateObservation :=
  let manual := holdings.filterMap (process_holding env ts)
  let robs := rate_observations env ts tracked
  let wallet_recs :=
    (wallets.map fun w =>
      process_solana_wallet_holdings env w.1 ts (rates0 ++ robs)).flatten
  (manual ++ wallet_recs, robs)

/-! ## Snapshot Aggregator (calculate_total_usd_value) -/

/-- SELECT MAX(Timestamp) FROM AssetsHistoricalValues: none on an empty
table. -/
def max_timestamp : List ValuationRecord → Option ℕ
  | [] => none
  | r :: rs =>
    match max_timestamp rs with
    | none => some r.timestamp
    | some m => some (max r.timestamp m)

/-- calculate_total_usd_value: sum of TotalUSD over the rows at the
maximal timestamp, zero (with a warning) when the table is empty. -/
def calculate_total_usd_value (table : List ValuationRecord) : ℚ :=
  match max_timestamp table with
  | none => 0
  | some m =>
    ((table.filter fun r => r.timestamp == m).map fun r => r.totalUSD).sum

/-! ## Helper lemmas -/

/-- A lookback window contributes nothing when it raises or is empty. -/
abbrev window_fails (r : ProviderResult) : Prop :=
  r = ProviderResult.err ∨ r = ProviderResult.ok []

lemma try_periods_eq_none_iff (f : String → String → ProviderResult)
    (ticker : String) (ps : List String) :
    try_periods f ticker ps = none ↔ ∀ p ∈ ps, window_fails (f ticker p) := by
  induction ps with
  | nil => simp [try_periods]
  | cons p ps ih =>
    simp only [try_periods]
    split
    · rename_i history heq
      split
      · rename_i price hl
        constructor
        · intro hc; exact Option.noConfusion hc
        · intro hall
          rcases hall p (List.mem_cons_self p ps) with h | h <;> rw [heq] at h
          · exact ProviderResult.noConfusion h
          · obtain rfl : history = [] := by injection h
            simp at hl
      · rename_i hl
        have hhist : history = [] := List.getLast?_eq_none_iff.mp hl
        rw [ih]
        constructor
        · intro hall q hq
          rcases List.mem_cons.mp hq with rfl | hq
          · rw [heq, hhist]; exact Or.inr rfl
          · exact hall q hq
        · intro hall q hq
          exact hall q (List.mem_cons_of_mem p hq)
    · rename_i heq
      rw [ih]
      constructor
      · intro hall q hq
        rcases List.mem_cons.mp hq with rfl | hq
        · rw [heq]; exact Or.inl rfl
        · exact hall q hq
      · intro hall q hq
        exact hall q (List.mem_cons_of_mem p hq)

lemma process_holding_timestamp (env : Env) (ts : ℕ) (h : ManualHolding)
    (r : ValuationRecord) (hr : process_holding env ts h = some r) :
    r.timestamp = ts := by
  unfold process_holding at hr
  cases hp : get_latest_price env.provider h.ticker with
  | none => rw [hp] at hr; exact absurd hr (by simp)
  | some price =>
    rw [hp] at hr
    cases hc : (holding_rate_and_currency env h).1 with
    | none => rw [hc] at hr; exact absurd hr (by simp)
    | some rate =>
      rw [hc] at hr
      obtain rfl := Option.some.inj hr
      rfl

lemma rate_observation_timestamp (env : Env) (ts : ℕ) (tracked : List String)
    (o : RateObservation) (ho : o ∈ rate_observations env ts tracked) :
    o.timestamp = ts := by
  unfold rate_observations at ho
  simp only [List.mem_filterMap, Option.map_eq_some'] at ho
  obtain ⟨t, -, p, -, rfl⟩ := ho
  rfl

lemma wallet_holding_timestamp (env : Env) (w : String) (ts : ℕ)
    (rates : List RateObservation) (r : ValuationRecord)
    (hr : r ∈ process_solana_wallet_holdings env w ts rates) :
    r.timestamp = ts := by
  unfold process_solana_wallet_holdings at hr
  simp only [List.mem_map] at hr
  obtain ⟨a, _, rfl⟩ := hr
  rfl

lemma latest_row_eq_none_iff (l : List RateObservation) :
    latest_row l = none ↔ l = [] := by
  cases l with
  | nil => simp [latest_row]
  | cons r rs =>
    simp only [latest_row]
    cases latest_row rs with
    | none => simp
    | some b => by_cases hb : r.timestamp < b.timestamp <;> simp [hb]

lemma latest_row_mem (l : List RateObservation) :
    ∀ r : RateObservation, latest_row l = some r → r ∈ l := by
  induction l with
  | nil => intro r h; simp [latest_row] at h
  | cons x xs ih =>
    intro r h
    simp only [latest_row] at h
    split at h
    · obtain rfl := Option.some.inj h
      exact List.mem_cons_self _ _
    · rename_i b hx
      split at h <;> obtain rfl := Option.some.inj h
      · exact List.mem_cons_of_mem _ (ih _ hx)
      · exact List.mem_cons_self _ _

lemma latest_row_le (l : List RateObservation) :
    ∀ r : RateObservation, latest_row l = some r →
      ∀ s ∈ l, s.timestamp ≤ r.timestamp := by
  induction l with
  | nil => intro r h; simp [latest_row] at h
  | cons x xs ih =>
    intro r h s hs
    simp only [latest_row] at h
    split at h
    · rename_i hx
      obtain rfl := Option.some.inj h
      have hxs : xs = [] := (latest_row_eq_none_iff xs).mp hx
      subst hxs
      rcases List.mem_singleton.mp hs with rfl
      exact le_refl _
    · rename_i b hx
      rcases List.mem_cons.mp hs with rfl | hs
      · split at h <;> obtain rfl := Option.some.inj h
        · rename_i hb; exact le_of_lt hb
        · exact le_refl _
      · split at h <;> obtain rfl := Option.some.inj h
        · exact ih _ hx s hs
        · rename_i hb
          exact le_trans (ih _ hx s hs) (le_of_not_lt hb)

lemma max_timestamp_eq_none_iff (table : List ValuationRecord) :
    max_timestamp table = none ↔ table = [] := by
  cases table with
  | nil => simp [max_timestamp]
  | cons r rs =>
    simp only [max_timestamp]
    cases max_timestamp rs <;> simp

lemma max_timestamp_mem (table : List ValuationRecord) :
    ∀ m : ℕ, max_timestamp table = some m → ∃ r ∈ table, r.timestamp = m := by
  induction table with
  | nil => intro m h; simp [max_timestamp] at h
  | cons x xs ih =>
    intro m h
    simp only [max_timestamp] at h
    split at h
    · obtain rfl := Option.some.inj h
      exact ⟨x, List.mem_cons_self _ _, rfl⟩
    · rename_i m2 hx
      obtain rfl := Option.some.inj h
      rcases max_choice x.timestamp m2 with hmax | hmax
      · exact ⟨x, List.mem_cons_self _ _, hmax.symm⟩
      · obtain ⟨r, hr, hrt⟩ := ih m2 hx
        exact ⟨r, List.mem_cons_of_mem _ hr, by rw [hrt, hmax]⟩

lemma max_timestamp_le (table : List ValuationRecord) :
    ∀ m : ℕ, max_timestamp table = some m → ∀ r ∈ table, r.timestamp ≤ m := by
  induction table with
  | nil => intro m h; simp [max_timestamp] at h
  | cons x xs ih =>
    intro m h r hr
    simp only [max_timestamp] at h
    split at h
    · rename_i hx
      obtain rfl := Option.some.inj h
      have hxs : xs = [] := (max_timestamp_eq_none_iff xs).mp hx
      subst hxs
      rcases List.mem_singleton.mp hr with rfl
      exact le_refl _
    · rename_i m2 hx
      obtain rfl := Option.some.inj h
      rcases List.mem_cons.mp hr with rfl | hr
      · exact le_max_left _ _
      · exact le_trans (ih m2 hx r hr) (le_max_right _ _)

lemma max_timestamp_of_bounds (table : List ValuationRecord) (m : ℕ)
    (hmem : ∃ r ∈ table, r.timestamp = m)
    (hmax : ∀ r ∈ table, r.timestamp ≤ m) :
    max_timestamp table = some m := by
  obtain ⟨r0, hr0, hr0t⟩ := hmem
  cases ht : max_timestamp table with
  | none =>
    rw [(max_timestamp_eq_none_iff table).mp ht] at hr0
    simp at hr0
  | some m2 =>
    obtain ⟨r1, hr1, hr1t⟩ := max_timestamp_mem table m2 ht
    have h1 : m2 ≤ m := hr1t ▸ hmax r1 hr1
    have h2 : m ≤ m2 := by
      have hb := max_timestamp_le table m2 ht r0 hr0
      rwa [hr0t] at hb
    rw [le_antisymm h1 h2]

/-! ## Sample environments used to instantiate the theorems -/

/-- A provider whose every window has the single close price 2. -/
def sample_provider : String → String → ProviderResult := fun _ _ =>
  ProviderResult.ok [2]

/-- A provider that raises on the one-day window and answers the wider
window with the history 3, 7. -/
def fallback_provider : String → String → ProviderResult := fun _ p =>
  if p = "1d" then ProviderResult.err else ProviderResult.ok [3, 7]

/-- A registry holding the EUR to USD conversion instrument. -/
def sample_registry : List TrackedInstrument :=
  [{ indexName := "EUR/USD", ticker := "EURUSD=X",
     fromCurrency := "EUR", toCurrency := "USD" }]

/-- An environment with the sample provider and registry and failing
wallet queries. -/
def sample_env : Env :=
  { provider := sample_provider, registry := sample_registry,
    getAssets := fun _ => none, searchAssets := fun _ => none }

/-- The sample environment with an empty conversion registry. -/
def no_rate_env : Env :=
  { provider := sample_provider, registry := [],
    getAssets := fun _ => none, searchAssets := fun _ => none }

/-- An environment whose wallet search reports one priced token of zero
balance. -/
def zero_balance_env : Env :=
  { provider := sample_provider, registry := [],
    getAssets := fun _ => none,
    searchAssets := fun _ =>
      some { result := some { items :=
        [{ symbol := "FOO", balance := 0, decimals := 0,
           total_price := 20 }] } } }

/-- A manual holding on an ordinary platform quoted in EUR. -/
def sample_holding : ManualHolding :=
  { platform := "Nordnet", accountWallet := "acct", assetType := "Stock",
    assetName := "Sample", ticker := "SMPL", amount := 3,
    nativeCurrency := "EUR" }

/-- A manual holding on the Solana platform. -/
def sample_sol_holding : ManualHolding :=
  { platform := "Solana", accountWallet := "w1", assetType := "Crypto",
    assetName := "Bonk", ticker := "BONK-USD", amount := 2,
    nativeCurrency := "X" }

/-- A four-row historical table: totals 40 and 60 at timestamp 1, totals
70 and 80 at timestamp 2. -/
def sample_table : List ValuationRecord :=
  [{ platform := "A", accountWallet := "a", assetType := "t",
     assetName := "n1", ticker := "T1", amount := 1, nativeCurrency := "USD",
     nativePrice := 40, usdPrice := 40, totalNative := 40, totalUSD := 40,
     timestamp := 1 },
   { platform := "A", accountWallet := "a", assetType := "t",
     assetName := "n2", ticker := "T2", amount := 1, nativeCurrency := "USD",
     nativePrice := 60, usdPrice := 60, totalNative := 60, totalUSD := 60,
     timestamp := 1 },
   { platform := "A", accountWallet := "a", assetType := "t",
     assetName := "n3", ticker := "T3", amount := 1, nativeCurrency := "USD",
     nativePrice := 70, usdPrice := 70, totalNative := 70, totalUSD := 70,
     timestamp := 2 },
   { platform := "A", accountWallet := "a", assetType := "t",
     assetName := "n4", ticker := "T4", amount := 1, nativeCurrency := "USD",
     nativePrice := 80, usdPrice := 80, totalNative := 80, totalUSD := 80,
     timestamp := 2 }]

/-! ## Claim theorems -/

/-- Claim C1: for every manual holding whose native price resolves and
whose conversion rate is available, the emitted ValuationRecord satisfies
exactly, in Decimal arithmetic: settlement unit price equals native price
times rate, native total equals quantity times native price, settlement
total equals quantity times settlement unit price, hence settlement total
equals quantity times native price times rate. -/
theorem manual_holding_decimal_arithmetic (env : Env) (ts : ℕ)
    (h : ManualHolding) (price rate : ℚ)
    (hp : get_latest_price env.provider h.ticker = some price)
    (hr : (holding_rate_and_currency env h).1 = some rate) :
    ∃ r : ValuationRecord, process_holding env ts h = some r ∧
      r.usdPrice = price * rate ∧
      r.totalNative = h.amount * price ∧
      r.totalUSD = h.amount * r.usdPrice ∧
      r.totalUSD = h.amount * price * rate := by
  simp only [process_holding, hp, hr]
  exact ⟨_, rfl, rfl, rfl, rfl, (mul_assoc h.amount price rate).symm⟩

/-- Claim C1 witness: the sample holding of quantity 3 at price 2 and
rate 2 is emitted with settlement total 12. -/
theorem manual_holding_decimal_arithmetic_witness :
    ∃ r : ValuationRecord,
      process_holding sample_env 5 sample_holding = some r ∧
      r.totalUSD = 12 := by
  obtain ⟨r, hr1, -, -, -, h5⟩ :=
    manual_holding_decimal_arithmetic sample_env 5 sample_holding 2 2
      (by decide) (by decide)
  refine ⟨r, hr1, ?_⟩
  rw [h5]; norm_num [sample_holding]

/-- Claim C2: every ValuationRecord and every RateObservation emitted by
one pipeline run carries the single snapshot timestamp captured for that
run, across manual holdings, tracked-instrument rate rows, and wallet
records. -/
theorem run_timestamp_coherence (env : Env) (ts : ℕ)
    (holdings : List ManualHolding) (tracked : List String)
    (wallets : List (String × String)) (rates0 : List RateObservation) :
    (∀ r ∈ (update_holdings_and_rates env ts holdings tracked wallets
        rates0).1, r.timestamp = ts) ∧
    (∀ o ∈ (update_holdings_and_rates env ts holdings tracked wallets
        rates0).2, o.timestamp = ts) := by
  constructor
  · intro r hr
    simp only [update_holdings_and_rates, List.mem_append,
      List.mem_filterMap, List.mem_flatten, List.mem_map] at hr
    rcases hr with ⟨h, -, hsome⟩ | ⟨l, ⟨w, -, rfl⟩, hmem⟩
    · exact process_holding_timestamp env ts h r hsome
    · exact wallet_holding_timestamp env w.1 ts
        (rates0 ++ rate_observations env ts tracked) r hmem
  · intro o ho
    simp only [update_holdings_and_rates] at ho
    exact rate_observation_timestamp env ts tracked o ho

/-- Claim C2 witness: in a concrete run stamped 5, the emitted EUR rate
observation carries timestamp 5. -/
theorem run_timestamp_coherence_witness :
    ({ ticker := "EURUSD=X", price := 2, timestamp := 5 } :
      RateObservation).timestamp = 5 :=
  (run_timestamp_coherence sample_env 5 [sample_holding] ["EURUSD=X"] []
    []).2 _ (by decide)

/-- Claim C3: an asset survives the dust filter iff it belongs to the
combined native-plus-fungible list and its total settlement value strictly
exceeds 10; in particular an asset with total exactly 10 is dropped. -/
theorem dust_filter_boundary (native_sol : Option NormalizedAsset)
    (other_assets : List NormalizedAsset) (a : NormalizedAsset) :
    a ∈ combine_and_filter_assets native_sol other_assets ↔
      a ∈ native_sol.toList ++ other_assets ∧ 10 < a.total_price := by
  cases native_sol <;>
    simp [combine_and_filter_assets, List.mem_filter]

/-- Claim C4: the Price Resolver tries the lookback windows shortest
first, returns the most recent close of the first window with non-empty
history, signals nothing iff every window errored or was empty, and a
provider error in the first window does not prevent trying the next. -/
theorem price_resolver_fallback (f : String → String → ProviderResult)
    (t : String) :
    (get_latest_price f t = none ↔ ∀ p ∈ periods, window_fails (f t p)) ∧
    (∀ h x, f t "1d" = ProviderResult.ok h → h.getLast? = some x →
      get_latest_price f t = some x) ∧
    (window_fails (f t "1d") →
      ∀ h x, f t "5d" = ProviderResult.ok h → h.getLast? = some x →
        get_latest_price f t = some x) := by
  refine ⟨try_periods_eq_none_iff f t periods, ?_, ?_⟩
  · intro h x h1 hl
    simp [get_latest_price, periods, try_periods, h1, hl]
  · rintro (h1 | h1) h x h5 hl <;>
      simp [get_latest_price, periods, try_periods, h1, h5, hl]

/-- Claim C4 witness: with an erroring one-day window and history 3, 7 in
the five-day window, the resolver returns 7. -/
theorem price_resolver_fallback_witness :
    get_latest_price fallback_provider "X" = some 7 :=
  (price_resolver_fallback fallback_provider "X").2.2 (Or.inl (by decide))
    [3, 7] 7 (by decide) (by decide)

/-- Claim C5: the Currency Converter returns exactly the rate 1 for the
settlement currency USD independently of the registry and of the provider,
and for any other currency signals unavailability when the registry has no
conversion instrument and otherwise returns exactly the result of the
Price Resolver for that instrument, so NotFound propagates as
Unavailable. -/
theorem usd_identity_shortcircuit (registry : List TrackedInstrument)
    (f : String → String → ProviderResult) (currency : String) :
    get_usd_exchange_rate registry f "USD" = some 1 ∧
    (currency ≠ "USD" →
      (lookup_conversion_ticker registry currency = none →
        get_usd_exchange_rate registry f currency = none) ∧
      (∀ tkr, lookup_conversion_ticker registry currency = some tkr →
        get_usd_exchange_rate registry f currency =
          get_latest_price f tkr)) := by
  refine ⟨by simp [get_usd_exchange_rate],
    fun hne => ⟨fun hl => ?_, fun tkr hl => ?_⟩⟩ <;>
    simp [get_usd_exchange_rate, hne, hl]

/-- Claim C5 witness: for EUR the converter delegates to the Price
Resolver on the registered instrument. -/
theorem usd_identity_shortcircuit_witness :
    get_usd_exchange_rate sample_registry sample_provider "EUR" =
      get_latest_price sample_provider "EURUSD=X" :=
  ((usd_identity_shortcircuit sample_registry sample_provider "EUR").2
    (by decide)).2 "EURUSD=X" (by decide)

/-- Claim C6: the Snapshot Aggregator returns the sum of settlement
totals over exactly the records carrying the maximal timestamp of the
historical table, and returns zero on an empty table. -/
theorem snapshot_aggregator_max_timestamp (table : List ValuationRecord)
    (m : ℕ) (hmem : ∃ r ∈ table, r.timestamp = m)
    (hmax : ∀ r ∈ table, r.timestamp ≤ m) :
    calculate_total_usd_value table =
      ((table.filter fun r => r.timestamp == m).map
        fun r => r.totalUSD).sum ∧
    calculate_total_usd_value [] = 0 := by
  refine ⟨?_, rfl⟩
  unfold calculate_total_usd_value
  rw [max_timestamp_of_bounds table m hmem hmax]

/-- Claim C6 witness: with totals 40 and 60 at timestamp 1 and totals 70
and 80 at timestamp 2, the aggregator returns 150. -/
theorem snapshot_aggregator_witness :
    calculate_total_usd_value sample_table = 150 := by
  have h := snapshot_aggregator_max_timestamp sample_table 2 (by decide)
    (by decide)
  rw [h.1]; norm_num [sample_table]

/-- Claim C7: native balance extraction divides the lamport balance by
10 to the 9, prices it with the most recent cached SOL rate from the
historical table, and falls back to the default rate 20 when no SOL
observation exists. -/
theorem native_sol_valuation (res : GetAssetsResult)
    (rates : List RateObservation) (L : ℤ) (hl : res.lamports = some L) :
    (get_native_sol_balance (some { result := some res }) rates =
      some { symbol := "SOL", balance := (L : ℚ) / 10 ^ 9,
             total_price := (L : ℚ) / 10 ^ 9 * get_sol_price rates }) ∧
    (rates.filter (fun r => r.ticker == "SOL-USD") = [] →
      get_sol_price rates = 20) ∧
    (rates.filter (fun r => r.ticker == "SOL-USD") ≠ [] →
      ∃ r ∈ rates.filter (fun r => r.ticker == "SOL-USD"),
        get_sol_price rates = r.price ∧
        ∀ s ∈ rates.filter (fun r => r.ticker == "SOL-USD"),
          s.timestamp ≤ r.timestamp) := by
  refine ⟨?_, fun hnil => ?_, fun hne => ?_⟩
  · simp [get_native_sol_balance, hl]
  · simp [get_sol_price, hnil, latest_row]
  · cases hrow : latest_row (rates.filter fun r => r.ticker == "SOL-USD")
      with
    | none => exact absurd ((latest_row_eq_none_iff _).mp hrow) hne
    | some b =>
      refine ⟨b, latest_row_mem _ b hrow, ?_, latest_row_le _ b hrow⟩
      simp [get_sol_price, hrow]

/-- Claim C7 witness: 1500000000 lamports with a cached SOL rate of 20
resolve to balance 1.5 and total value 30. -/
theorem native_sol_valuation_witness :
    get_native_sol_balance
      (some { result := some { lamports := some 1500000000 } })
      [{ ticker := "SOL-USD", price := 20, timestamp := 1 }] =
      some { symbol := "SOL", balance := 3 / 2, total_price := 30 } := by
  have h := (native_sol_valuation { lamports := some 1500000000 }
    [{ ticker := "SOL-USD", price := 20, timestamp := 1 }] 1500000000
    rfl).1
  rw [h]; norm_num [get_sol_price, latest_row]

/-- Claim C8: a Solana-platform manual holding short-circuits conversion
to the identity rate 1 with native currency overwritten to USD, for every
environment, while any other platform resolves the rate through the
Currency Converter and the holding is skipped when that rate is
unavailable. -/
theorem onchain_rate_shortcircuit (env : Env) (ts : ℕ)
    (h : ManualHolding) :
    (h.platform = "Solana" →
      holding_rate_and_currency env h = (some 1, "USD") ∧
      ∀ r, process_holding env ts h = some r → r.nativeCurrency = "USD") ∧
    (h.platform ≠ "Solana" →
      (holding_rate_and_currency env h).1 =
        get_usd_exchange_rate env.registry env.provider h.nativeCurrency ∧
      (get_usd_exchange_rate env.registry env.provider h.nativeCurrency =
          none →
        process_holding env ts h = none)) := by
  constructor
  · intro hsol
    have hrc : holding_rate_and_currency env h = (some 1, "USD") := by
      simp [holding_rate_and_currency, hsol]
    refine ⟨hrc, fun r hr => ?_⟩
    simp only [process_holding] at hr
    split at hr
    · exact Option.noConfusion hr
    · split at hr
      · exact Option.noConfusion hr
      · obtain rfl := Option.some.inj hr
        simp [hrc]
  · intro hns
    have hrc1 : (holding_rate_and_currency env h).1 =
        get_usd_exchange_rate env.registry env.provider h.nativeCurrency := by
      simp [holding_rate_and_currency, hns]
    refine ⟨hrc1, fun hnone => ?_⟩
    simp only [process_holding]
    split
    · rfl
    · rw [hrc1, hnone]

/-- Claim C8 witness: the Solana sample holding gets the identity rate
with currency USD, and the EUR sample holding is skipped under an empty
registry. -/
theorem onchain_rate_shortcircuit_witness :
    holding_rate_and_currency sample_env sample_sol_holding =
      (some 1, "USD") ∧
    process_holding no_rate_env 5 sample_holding = none :=
  ⟨((onchain_rate_shortcircuit sample_env 5 sample_sol_holding).1 rfl).1,
   ((onchain_rate_shortcircuit no_rate_env 5 sample_holding).2
     (by decide)).2 (by decide)⟩

/-- Claim C9: the two wallet queries contribute independently: an absent
or malformed native-balance response leaves exactly the filtered fungible
contributions, a native response missing its lamport fields yields a
zero-value entry that the dust filter removes, and an absent or malformed
search response contributes an empty fungible list without suppressing the
native entry; every case is total. -/
theorem wallet_query_independence (searchR : Option SearchRaw)
    (gaR : Option GetAssetsRaw) (rates : List RateObservation) :
    (combine_and_filter_assets (get_native_sol_balance none rates)
        (get_other_assets searchR) =
      (get_other_assets searchR).filter
        fun a => decide (10 < a.total_price)) ∧
    (combine_and_filter_assets
        (get_native_sol_balance (some { result := none }) rates)
        (get_other_assets searchR) =
      (get_other_assets searchR).filter
        fun a => decide (10 < a.total_price)) ∧
    (combine_and_filter_assets
        (get_native_sol_balance
          (some { result := some { lamports := none } }) rates)
        (get_other_assets searchR) =
      (get_other_assets searchR).filter
        fun a => decide (10 < a.total_price)) ∧
    (get_other_assets none = [] ∧
      get_other_assets (some { result := none }) = []) ∧
    (combine_and_filter_assets (get_native_sol_balance gaR rates)
        (get_other_assets none) =
      combine_and_filter_assets (get_native_sol_balance gaR rates) []) := by
  refine ⟨rfl, rfl, ?_, ⟨rfl, rfl⟩, rfl⟩
  have hz : ((0 : ℤ) : ℚ) / 10 ^ 9 * get_sol_price rates = 0 := by
    norm_num
  simp [get_native_sol_balance, combine_and_filter_assets, hz]

/-- Claim C10: a wallet asset that survives the dust filter with zero
balance is still recorded: the unit-price division is guarded, so the
record carries native and settlement unit prices 0 while keeping the
reported totals. -/
theorem zero_balance_record_total (env : Env) (wallet : String) (ts : ℕ)
    (rates : List RateObservation) (a : NormalizedAsset)
    (ha : a ∈ combine_and_filter_assets
      (get_native_sol_balance (env.getAssets wallet) rates)
      (get_other_assets (env.searchAssets wallet)))
    (hz : a.balance = 0) :
    wallet_record wallet ts a ∈
      process_solana_wallet_holdings env wallet ts rates ∧
    (wallet_record wallet ts a).nativePrice = 0 ∧
    (wallet_record wallet ts a).usdPrice = 0 ∧
    (wallet_record wallet ts a).totalNative = a.total_price ∧
    (wallet_record wallet ts a).totalUSD = a.total_price ∧
    (wallet_record wallet ts a).amount = 0 := by
  refine ⟨?_, ?_, ?_, rfl, rfl, hz⟩
  · exact List.mem_map_of_mem _ ha
  · simp [wallet_record, hz]
  · simp [wallet_record, hz]

/-- Claim C10 witness: a zero-balance token worth 20 is recorded with
unit price 0. -/
theorem zero_balance_record_total_witness :
    wallet_record "w" 5
        { symbol := "FOO", balance := 0, total_price := 20 } ∈
      process_solana_wallet_holdings zero_balance_env "w" 5 [] ∧
    (wallet_record "w" 5
      { symbol := "FOO", balance := 0, total_price := 20 }).nativePrice =
      0 := by
  have ha : ({ symbol := "FOO", balance := 0, total_price := 20 } :
      NormalizedAsset) ∈ combine_and_filter_assets
        (get_native_sol_balance (zero_balance_env.getAssets "w") [])
        (get_other_assets (zero_balance_env.searchAssets "w")) := by
    norm_num [zero_balance_env, get_other_assets, get_native_sol_balance,
      combine_and_filter_assets, List.filter_cons, List.mem_filter]
  have h := zero_balance_record_total zero_balance_env "w" 5 []
    { symbol := "FOO", balance := 0, total_price := 20 } ha rfl
  exact ⟨h.1, h.2.1⟩

end Valuation
